import Mathlib

/-!
Shallow embedding of `src/lib/device-online-state.ts` (the device online-state
manager of open-balena-api): the heartbeat intake `captureEventFor`, the
scheduler `scheduleChangeOfStateForDevice`, the System-of-Record writer
`updateDeviceModel`, and one iteration of the queue `consume` loop.

Effects (redis get/set, rsmq send/delete/receive, API patch, captureException)
are made explicit: each embedded function takes an environment describing the
outcome of its external calls and returns its result together with the list of
effects it performed, in source order.  A rejected promise is `Except.error ()`.
-/

namespace DeviceOnlineState

/-- `DeviceOnlineStates.Unknown = -2` from the TypeScript enum. -/
def DeviceOnlineStates.Unknown : Int := -2

/-- `DeviceOnlineStates.Timeout = -1` from the TypeScript enum. -/
def DeviceOnlineStates.Timeout : Int := -1

/-- `DeviceOnlineStates.Offline = 0` from the TypeScript enum. -/
def DeviceOnlineStates.Offline : Int := 0

/-- `DeviceOnlineStates.Online = 1` from the TypeScript enum. -/
def DeviceOnlineStates.Online : Int := 1

/-- A parsed Delay-Store record `{ id, currentState }` as written by
`scheduleChangeOfStateForDevice`.  A JavaScript-falsy / missing `id`
is modelled as the empty string. -/
structure StoredRecord where
  id : String
  currentState : Int
deriving DecidableEq, Repr

/-- What `JSON.parse` of a Delay-Store value can yield: a record, or a parse
failure (the stored string is not valid JSON). -/
inductive StoreVal where
  | record (r : StoredRecord)
  | malformed
deriving DecidableEq, Repr

/-- An observable effect of the manager, in the order the source issues it. -/
inductive Event where
  | storeGet (uuid : String)
  | patch (uuid : String) (newState : Int)
  | report
  | qdelete (id : String)
  | qsend (uuid : String) (nextState : Int) (delay : Nat)
  | storePut (uuid : String) (id : String) (currentState : Int) (ttl : Nat)
  | idleDelay
deriving DecidableEq, Repr

/-- `updateDeviceModel(uuid, newState)`: PATCH the device resource filtered by
`{ uuid, $not: { api_heartbeat_state: newState } }`; on rejection the error is
reported via `captureException` and the promise resolves `false` (the
function never rejects). `patchOk` is the outcome of the PATCH request. -/
def updateDeviceModel (uuid : String) (newState : Int) (patchOk : Bool) :
    Bool × List Event :=
  if patchOk then (true, [Event.patch uuid newState])
  else (false, [Event.patch uuid newState, Event.report])

/-- Environment for one `scheduleChangeOfStateForDevice` call: the redis GET
outcome (`Except.error ()` when the GET rejects, otherwise the parsed value, if
any), the outcome of deleting the old queued message (ignored by the source via
`.catch(noop)`), the `sendMessageAsync` outcome (new message id), and whether
the final redis SET succeeds. -/
structure SchedEnv where
  getRes : Except Unit (Option StoreVal)
  deleteOldOk : Bool
  sendRes : Except Unit String
  setOk : Bool

/-- The best-effort cancellation step of the scheduler: when the stored record
names a message (`if (id)` in the source, falsy modelled as `""`), that message
is deleted from the queue; deletion errors are ignored (`.catch(noop)`). -/
def oldDeleteEvs (r : StoredRecord) : List Event :=
  if r.id = "" then [] else [Event.qdelete r.id]

/-- `scheduleChangeOfStateForDevice(uuid, currentState, nextState, delay)`:
GET the delay record; if parsing fails the exception is uncaught and the chain
rejects; if the record holds an id, delete that message ignoring errors; then
send the new `{uuid, nextState}` message with the given delay and store
`{id, currentState}` with TTL `delay + 5`.  Any uncaught rejection yields
`Except.error ()`. -/
def scheduleChangeOfStateForDevice (uuid : String) (currentState : Int)
    (nextState : Int) (delay : Nat) (env : SchedEnv) :
    Except Unit Unit × List Event :=
  match env.getRes with
  | Except.error _ => (Except.error (), [Event.storeGet uuid])
  | Except.ok none =>
    match env.sendRes with
    | Except.error _ => (Except.error (), [Event.storeGet uuid])
    | Except.ok newId =>
      if env.setOk then
        (Except.ok (),
          [Event.storeGet uuid, Event.qsend uuid nextState delay,
           Event.storePut uuid newId currentState (delay + 5)])
      else
        (Except.error (),
          [Event.storeGet uuid, Event.qsend uuid nextState delay])
  | Except.ok (some StoreVal.malformed) => (Except.error (), [Event.storeGet uuid])
  | Except.ok (some (StoreVal.record r)) =>
    match env.sendRes with
    | Except.error _ => (Except.error (), Event.storeGet uuid :: oldDeleteEvs r)
    | Except.ok newId =>
      if env.setOk then
        (Except.ok (),
          Event.storeGet uuid :: oldDeleteEvs r ++
            [Event.qsend uuid nextState delay,
             Event.storePut uuid newId currentState (delay + 5)])
      else
        (Except.error (),
          Event.storeGet uuid :: oldDeleteEvs r ++ [Event.qsend uuid nextState delay])

/-- The code's freshly-online test in `captureEventFor`: the redis GET failed or
the value is absent or unparsable (both land in `.catch(() => true)`), or the
parsed record has a falsy `id`, or its `currentState` is not `Online`. -/
def freshlyOnline : Except Unit (Option StoreVal) → Bool
  | Except.error _ => true
  | Except.ok none => true
  | Except.ok (some StoreVal.malformed) => true
  | Except.ok (some (StoreVal.record r)) =>
    decide (r.id = "") || decide (r.currentState ≠ DeviceOnlineStates.Online)

/-- Environment for one `captureEventFor` call: the intake redis GET outcome,
the outcome of the Online PATCH, and the environment of the nested
`scheduleChangeOfStateForDevice` call. -/
structure HbEnv where
  getRes : Except Unit (Option StoreVal)
  patchOk : Bool
  sched : SchedEnv

/-- `captureEventFor(uuid, timeoutSeconds)`: GET the delay record; when the
freshly-online test holds, run `deviceOnline` (= `updateDeviceModel` with
`Online`), discarding its boolean; then always call
`scheduleChangeOfStateForDevice(uuid, Online, Timeout, timeoutSeconds)` and
return its outcome (its rejection is not caught). -/
def captureEventFor (uuid : String) (timeoutSeconds : Nat) (env : HbEnv) :
    Except Unit Unit × List Event :=
  let onlineEvs : List Event :=
    if freshlyOnline env.getRes then
      (updateDeviceModel uuid DeviceOnlineStates.Online env.patchOk).2
    else []
  let sched :=
    scheduleChangeOfStateForDevice uuid DeviceOnlineStates.Online
      DeviceOnlineStates.Timeout timeoutSeconds env.sched
  (sched.1, Event.storeGet uuid :: onlineEvs ++ sched.2)

/-- A well-formed queue message payload `{uuid, nextState}` together with its
queue-assigned message id. -/
structure QueueMsg where
  id : String
  uuid : String
  nextState : Int
deriving DecidableEq, Repr

/-- What `receiveMessageAsync` can hand the consumer: a message whose payload
parses, or one whose payload `JSON.parse` rejects on. -/
inductive RecvMsg where
  | wellFormed (m : QueueMsg)
  | malformed (id : String)
deriving DecidableEq, Repr

/-- Environment for one iteration of `consume`: the receive outcome
(`Except.error ()` when the receive rejects, `Except.ok none` when no message
is ready), the PATCH outcome for `updateDeviceModel`, the environment of the
chained `scheduleChangeOfStateForDevice` call (Timeout branch), and the
outcome of deleting the consumed message. -/
structure ConsumeEnv where
  recvRes : Except Unit (Option RecvMsg)
  patchOk : Bool
  sched : SchedEnv
  deleteOk : Bool

/-- One iteration of the `consume` loop, with `grace` standing for the
configured `API_HEARTBEAT_STATE_TIMEOUT_SECONDS`.  Returns the effects of the
iteration and whether another iteration is scheduled (the source always chains
`.then(() => this.consume())`, so this flag is always `true`).
A `Timeout` message fires `scheduleChangeOfStateForDevice(uuid, Timeout,
Offline, grace)` (result discarded) and writes `Timeout`; an `Offline` message
writes `Offline`; any other `nextState` throws, which skips the
`deleteMessageAsync` step and lands in the inner `.catch(captureException)`.
After a handled message the consumed message is deleted (a failed delete is
reported by the inner catch).  A failed receive is reported by the outer
catch; an empty receive waits one second. -/
def consumeStep (grace : Nat) (env : ConsumeEnv) : List Event × Bool :=
  match env.recvRes with
  | Except.error _ => ([Event.report], true)
  | Except.ok none => ([Event.idleDelay], true)
  | Except.ok (some (RecvMsg.malformed _)) => ([Event.report], true)
  | Except.ok (some (RecvMsg.wellFormed m)) =>
    let delEvs : List Event :=
      Event.qdelete m.id :: (if env.deleteOk then [] else [Event.report])
    if m.nextState = DeviceOnlineStates.Timeout then
      let schedEvs :=
        (scheduleChangeOfStateForDevice m.uuid DeviceOnlineStates.Timeout
          DeviceOnlineStates.Offline grace env.sched).2
      let patchEvs :=
        (updateDeviceModel m.uuid DeviceOnlineStates.Timeout env.patchOk).2
      (schedEvs ++ patchEvs ++ delEvs, true)
    else if m.nextState = DeviceOnlineStates.Offline then
      let patchEvs :=
        (updateDeviceModel m.uuid DeviceOnlineStates.Offline env.patchOk).2
      (patchEvs ++ delEvs, true)
    else ([Event.report], true)

/-- Iterating the consume loop over a stream of environments: every iteration
runs, because every iteration reschedules itself. -/
def consumeRun (grace : Nat) : List ConsumeEnv → List Event
  | [] => []
  | env :: rest => (consumeStep grace env).1 ++ consumeRun grace rest

/-- Semantics of the `updateDeviceModel` PATCH against the device table: the
filter `{ uuid, $not: { api_heartbeat_state: newState } }` updates exactly the
rows whose uuid matches and whose persisted state differs from `newState`. -/
def patchHeartbeatState (db : String → Int) (uuid : String) (newState : Int) :
    String → Int :=
  fun u => if u = uuid ∧ db u ≠ newState then newState else db u

/-- A live message of the Delayed Queue. -/
structure QueueEntry where
  id : String
  uuid : String
  nextState : Int
deriving DecidableEq, Repr

/-- The coordination state touched by the scheduler: the Delayed Queue content
and the Delay Store (key = device uuid). -/
structure SysState where
  queue : List QueueEntry
  store : String → Option StoredRecord

/-- Delay-Store read. -/
def delayStoreGet (store : String → Option StoredRecord) (uuid : String) :
    Option StoredRecord :=
  store uuid

/-- Delay-Store write (redis SET overwrites the key). -/
def delayStoreSet (store : String → Option StoredRecord) (uuid : String)
    (r : StoredRecord) : String → Option StoredRecord :=
  fun k => if k = uuid then some r else store k

/-- Effect of a successful `scheduleChangeOfStateForDevice(uuid, currentState,
nextState, _)` on queue and store: delete the message named by the stored
record (if any), enqueue one new message with the queue-assigned fresh id
`newId`, and overwrite the record with `{id := newId, currentState}`.
`cancelOld` is the deletion step. -/
def cancelOld (s : SysState) (uuid : String) : List QueueEntry :=
  match delayStoreGet s.store uuid with
  | none => s.queue
  | some r =>
    if r.id = "" then s.queue else s.queue.filter (fun e => e.id ≠ r.id)

def scheduleOp (s : SysState) (uuid : String) (currentState : Int)
    (nextState : Int) (newId : String) : SysState :=
  ⟨cancelOld s uuid ++ [⟨newId, uuid, nextState⟩],
    delayStoreSet s.store uuid ⟨newId, currentState⟩⟩

/-- The live messages of a given agent. -/
def pendingFor (s : SysState) (uuid : String) : List QueueEntry :=
  s.queue.filter (fun e => e.uuid = uuid)

/-- Coherence invariant between Delayed Queue and Delay Store: queue message
ids are distinct and non-empty, and every live message is named by the Delay
Store record of its agent. -/
def QueueInv (s : SysState) : Prop :=
  (s.queue.map QueueEntry.id).Nodup
  ∧ (∀ e ∈ s.queue, e.id ≠ "")
  ∧ (∀ e ∈ s.queue, ∃ r, delayStoreGet s.store e.uuid = some r ∧ r.id = e.id)

/-- At most one live pending message per agent. -/
def AtMostOnePending (s : SysState) : Prop :=
  ∀ uuid, (pendingFor s uuid).length ≤ 1

/-- The scheduler environment allows the send to go through: the GET yields an
absent or parsable value and `sendMessageAsync` succeeds. -/
def SchedSendOk (e : SchedEnv) : Prop :=
  (e.getRes = Except.ok none ∨ ∃ r, e.getRes = Except.ok (some (StoreVal.record r)))
  ∧ ∃ i, e.sendRes = Except.ok i

/-- A consumer environment delivering a message whose `nextState` (5) is
neither `Timeout` nor `Offline`. -/
def badStateEnv : ConsumeEnv :=
  ⟨Except.ok (some (RecvMsg.wellFormed ⟨"m1", "d1", 5⟩)), true,
    ⟨Except.ok none, true, Except.ok "m2", true⟩, true⟩

/-- A heartbeat environment whose Delay-Store record has `currentState =
Online` but an empty (falsy) message id. -/
def emptyIdEnv : HbEnv :=
  ⟨Except.ok (some (StoreVal.record ⟨"", DeviceOnlineStates.Online⟩)), true,
    ⟨Except.ok (some (StoreVal.record ⟨"", DeviceOnlineStates.Online⟩)), true,
      Except.ok "m6", true⟩⟩

/-- A heartbeat environment whose scheduler redis GET rejects. -/
def schedFailEnv : HbEnv :=
  ⟨Except.ok none, true, ⟨Except.error (), true, Except.ok "m7", true⟩⟩

/-- A consumer environment whose `receiveMessageAsync` call rejects. -/
def failedRecvEnv : ConsumeEnv :=
  ⟨Except.error (), true, ⟨Except.ok none, true, Except.ok "m9", true⟩, true⟩

lemma mem_oldDeleteEvs (e : Event) (r : StoredRecord) :
    e ∈ oldDeleteEvs r ↔ r.id ≠ "" ∧ e = Event.qdelete r.id := by
  unfold oldDeleteEvs
  split_ifs with h <;> simp [h]

lemma sched_no_patch (uuid : String) (cs ns : Int) (d : Nat) (env : SchedEnv)
    (u : String) (st : Int) :
    Event.patch u st ∉ (scheduleChangeOfStateForDevice uuid cs ns d env).2 := by
  obtain ⟨g, dOk, sRes, sOk⟩ := env
  rcases g with e | (_ | (⟨r⟩ | _)) <;>
    rcases sRes with e2 | newId <;>
      rcases sOk with _ | _ <;>
        simp [scheduleChangeOfStateForDevice, mem_oldDeleteEvs]

lemma sched_no_report (uuid : String) (cs ns : Int) (d : Nat) (env : SchedEnv) :
    Event.report ∉ (scheduleChangeOfStateForDevice uuid cs ns d env).2 := by
  obtain ⟨g, dOk, sRes, sOk⟩ := env
  rcases g with e | (_ | (⟨r⟩ | _)) <;>
    rcases sRes with e2 | newId <;>
      rcases sOk with _ | _ <;>
        simp [scheduleChangeOfStateForDevice, mem_oldDeleteEvs]

lemma sched_qsend_of_sendOk (uuid : String) (cs ns : Int) (d : Nat)
    (env : SchedEnv) (h : SchedSendOk env) :
    Event.qsend uuid ns d ∈ (scheduleChangeOfStateForDevice uuid cs ns d env).2 := by
  obtain ⟨hg, i, hi⟩ := h
  rcases hg with hg | ⟨r, hg⟩ <;>
    rcases hsOk : env.setOk with _ | _ <;>
      simp [scheduleChangeOfStateForDevice, hg, hi, hsOk]

lemma sched_qsend_shape (uuid : String) (cs ns : Int) (d : Nat) (env : SchedEnv)
    (u : String) (st : Int) (dl : Nat)
    (h : Event.qsend u st dl ∈ (scheduleChangeOfStateForDevice uuid cs ns d env).2) :
    u = uuid ∧ st = ns ∧ dl = d := by
  obtain ⟨g, dOk, sRes, sOk⟩ := env
  rcases g with e | (_ | (⟨r⟩ | _)) <;>
    rcases sRes with e2 | newId <;>
      rcases sOk with _ | _ <;>
        simp_all [scheduleChangeOfStateForDevice, mem_oldDeleteEvs]

lemma consumeStep_snd (grace : Nat) (env : ConsumeEnv) :
    (consumeStep grace env).2 = true := by
  obtain ⟨recv, pOk, sEnv, dOk⟩ := env
  rcases recv with e | (_ | (⟨m⟩ | ⟨i⟩))
  · rfl
  · rfl
  · simp only [consumeStep]
    split_ifs <;> rfl
  · rfl

lemma updateDeviceModel_patch_mem (uuid : String) (ns : Int) (ok : Bool) :
    Event.patch uuid ns ∈ (updateDeviceModel uuid ns ok).2 := by
  cases ok <;> simp [updateDeviceModel]

lemma updateDeviceModel_mem_iff (uuid : String) (ns : Int) (ok : Bool) (e : Event) :
    e ∈ (updateDeviceModel uuid ns ok).2 ↔
      e = Event.patch uuid ns ∨ (ok = false ∧ e = Event.report) := by
  cases ok <;> simp [updateDeviceModel]

lemma captureEventFor_trace (uuid : String) (t : Nat) (env : HbEnv) :
    (captureEventFor uuid t env).2 =
      Event.storeGet uuid ::
        ((if freshlyOnline env.getRes then
            (updateDeviceModel uuid DeviceOnlineStates.Online env.patchOk).2
          else []) ++
          (scheduleChangeOfStateForDevice uuid DeviceOnlineStates.Online
            DeviceOnlineStates.Timeout t env.sched).2) := rfl

lemma captureEventFor_fst (uuid : String) (t : Nat) (env : HbEnv) :
    (captureEventFor uuid t env).1 =
      (scheduleChangeOfStateForDevice uuid DeviceOnlineStates.Online
        DeviceOnlineStates.Timeout t env.sched).1 := rfl

lemma states_offline_ne_timeout :
    DeviceOnlineStates.Offline ≠ DeviceOnlineStates.Timeout := by decide

lemma consumeStep_timeout_trace (grace : Nat) (env : ConsumeEnv) (m : QueueMsg)
    (hrecv : env.recvRes = Except.ok (some (RecvMsg.wellFormed m)))
    (h1 : m.nextState = DeviceOnlineStates.Timeout) :
    (consumeStep grace env).1 =
      (scheduleChangeOfStateForDevice m.uuid DeviceOnlineStates.Timeout
          DeviceOnlineStates.Offline grace env.sched).2
        ++ (updateDeviceModel m.uuid DeviceOnlineStates.Timeout env.patchOk).2
        ++ (Event.qdelete m.id ::
            (if env.deleteOk then [] else [Event.report])) := by
  simp [consumeStep, hrecv, h1]

lemma consumeStep_offline_trace (grace : Nat) (env : ConsumeEnv) (m : QueueMsg)
    (hrecv : env.recvRes = Except.ok (some (RecvMsg.wellFormed m)))
    (h2 : m.nextState = DeviceOnlineStates.Offline) :
    (consumeStep grace env).1 =
      (updateDeviceModel m.uuid DeviceOnlineStates.Offline env.patchOk).2
        ++ (Event.qdelete m.id ::
            (if env.deleteOk then [] else [Event.report])) := by
  simp [consumeStep, hrecv, h2, states_offline_ne_timeout]

lemma consumeStep_other_trace (grace : Nat) (env : ConsumeEnv) (m : QueueMsg)
    (hrecv : env.recvRes = Except.ok (some (RecvMsg.wellFormed m)))
    (h1 : m.nextState ≠ DeviceOnlineStates.Timeout)
    (h2 : m.nextState ≠ DeviceOnlineStates.Offline) :
    (consumeStep grace env).1 = [Event.report] := by
  simp [consumeStep, hrecv, h1, h2]

/-- C2: a consumed `Timeout` message makes the loop write `Timeout` to the
System-of-Record and schedule an `Offline` transition after the fixed grace
delay (when the scheduler's queue accepts the send); a consumed `Offline`
message only writes `Offline`; `Timeout` is the only message kind whose
handling emits a follow-up schedule. -/
theorem consume_timeout_chains_offline :
    ∀ (grace : Nat) (env : ConsumeEnv) (m : QueueMsg),
      env.recvRes = Except.ok (some (RecvMsg.wellFormed m)) →
      (m.nextState = DeviceOnlineStates.Timeout →
          Event.patch m.uuid DeviceOnlineStates.Timeout ∈ (consumeStep grace env).1
            ∧ (SchedSendOk env.sched →
                Event.qsend m.uuid DeviceOnlineStates.Offline grace
                  ∈ (consumeStep grace env).1))
        ∧ (m.nextState = DeviceOnlineStates.Offline →
            Event.patch m.uuid DeviceOnlineStates.Offline ∈ (consumeStep grace env).1
              ∧ ∀ u ns d, Event.qsend u ns d ∉ (consumeStep grace env).1)
        ∧ (∀ u ns d, Event.qsend u ns d ∈ (consumeStep grace env).1 →
            m.nextState = DeviceOnlineStates.Timeout) := by
  intro grace env m hrecv
  refine ⟨fun h1 => ⟨?_, fun hs => ?_⟩, fun h2 => ⟨?_, fun u ns d hmem => ?_⟩,
    fun u ns d hmem => ?_⟩
  · rw [consumeStep_timeout_trace grace env m hrecv h1]
    exact List.mem_append_left _ (List.mem_append_right _
      (updateDeviceModel_patch_mem m.uuid DeviceOnlineStates.Timeout env.patchOk))
  · rw [consumeStep_timeout_trace grace env m hrecv h1]
    exact List.mem_append_left _ (List.mem_append_left _
      (sched_qsend_of_sendOk m.uuid DeviceOnlineStates.Timeout
        DeviceOnlineStates.Offline grace env.sched hs))
  · rw [consumeStep_offline_trace grace env m hrecv h2]
    exact List.mem_append_left _
      (updateDeviceModel_patch_mem m.uuid DeviceOnlineStates.Offline env.patchOk)
  · rw [consumeStep_offline_trace grace env m hrecv h2] at hmem
    rcases List.mem_append.mp hmem with hmem | hmem
    · rcases (updateDeviceModel_mem_iff _ _ _ _).mp hmem with h | ⟨_, h⟩ <;> cases h
    · rcases List.mem_cons.mp hmem with h | h
      · cases h
      · revert h
        split_ifs <;> simp
  · by_cases h1 : m.nextState = DeviceOnlineStates.Timeout
    · exact h1
    · by_cases h2 : m.nextState = DeviceOnlineStates.Offline
      · exfalso
        rw [consumeStep_offline_trace grace env m hrecv h2] at hmem
        rcases List.mem_append.mp hmem with hmem | hmem
        · rcases (updateDeviceModel_mem_iff _ _ _ _).mp hmem with h | ⟨_, h⟩ <;>
            cases h
        · rcases List.mem_cons.mp hmem with h | h
          · cases h
          · revert h
            split_ifs <;> simp
      · exfalso
        rw [consumeStep_other_trace grace env m hrecv h1 h2] at hmem
        simp at hmem

/-- Witness for C2: a concrete `Timeout` message yields the `Timeout` write and
the chained `Offline` schedule. -/
theorem consume_timeout_chains_offline_witness :
    Event.patch "d1" DeviceOnlineStates.Timeout ∈
        (consumeStep 7 ⟨Except.ok (some (RecvMsg.wellFormed ⟨"m1", "d1", -1⟩)),
          true, ⟨Except.ok none, true, Except.ok "m2", true⟩, true⟩).1
      ∧ Event.qsend "d1" DeviceOnlineStates.Offline 7 ∈
        (consumeStep 7 ⟨Except.ok (some (RecvMsg.wellFormed ⟨"m1", "d1", -1⟩)),
          true, ⟨Except.ok none, true, Except.ok "m2", true⟩, true⟩).1 := by
  have h := (consume_timeout_chains_offline 7
    ⟨Except.ok (some (RecvMsg.wellFormed ⟨"m1", "d1", -1⟩)), true,
      ⟨Except.ok none, true, Except.ok "m2", true⟩, true⟩
    ⟨"m1", "d1", -1⟩ rfl).1 rfl
  exact ⟨h.1, h.2 ⟨Or.inl rfl, "m2", rfl⟩⟩

/-- Counterexample to C3: on a message with `nextState = 5` the handler throws,
which skips the `.then(deleteMessageAsync)` step, so the error is reported but
the message is NOT deleted from the queue. -/
theorem consume_unknown_state_counterexample :
    badStateEnv.recvRes
        = Except.ok (some (RecvMsg.wellFormed ⟨"m1", "d1", 5⟩))
      ∧ Event.report ∈ (consumeStep 7 badStateEnv).1
      ∧ Event.qdelete "m1" ∉ (consumeStep 7 badStateEnv).1 := by
  refine ⟨rfl, ?_, ?_⟩ <;> decide

/-- C3 (amended): for a well-formed message whose `nextState` is neither
`Timeout` nor `Offline` the handler throws, the error is reported by the inner
catch, and deletion is skipped, so the whole iteration reduces to a single
report and the message is left for redelivery after the visibility timeout. -/
theorem consume_unknown_state_skips_delete :
    ∀ (grace : Nat) (env : ConsumeEnv) (m : QueueMsg),
      env.recvRes = Except.ok (some (RecvMsg.wellFormed m)) →
      m.nextState ≠ DeviceOnlineStates.Timeout →
      m.nextState ≠ DeviceOnlineStates.Offline →
      (consumeStep grace env).1 = [Event.report] := by
  intro grace env m hrecv h1 h2
  exact consumeStep_other_trace grace env m hrecv h1 h2

/-- Witness for C3 (amended): the concrete `nextState = 5` message produces
exactly one report and nothing else. -/
theorem consume_unknown_state_skips_delete_witness :
    (consumeStep 7 badStateEnv).1 = [Event.report] :=
  consume_unknown_state_skips_delete 7 badStateEnv ⟨"m1", "d1", 5⟩ rfl
    (by decide) (by decide)

/-- C10: when the System-of-Record PATCH fails while the consumer handles a
`Timeout` or `Offline` message, `updateDeviceModel` resolves `false` instead
of rejecting (the error is reported), so the handler still reaches the delete
step and the consumed message is deleted rather than redelivered. -/
theorem consume_write_failure_still_deletes :
    ∀ (grace : Nat) (env : ConsumeEnv) (m : QueueMsg),
      env.recvRes = Except.ok (some (RecvMsg.wellFormed m)) →
      env.patchOk = false →
      (m.nextState = DeviceOnlineStates.Timeout
        ∨ m.nextState = DeviceOnlineStates.Offline) →
      (updateDeviceModel m.uuid m.nextState env.patchOk).1 = false
        ∧ Event.report ∈ (consumeStep grace env).1
        ∧ Event.qdelete m.id ∈ (consumeStep grace env).1 := by
  intro grace env m hrecv hp hst
  have hfalse : (updateDeviceModel m.uuid m.nextState env.patchOk).1 = false := by
    rw [hp]; simp [updateDeviceModel]
  have hrep : Event.report ∈ (updateDeviceModel m.uuid m.nextState env.patchOk).2 := by
    rw [hp]; simp [updateDeviceModel]
  rcases hst with hst | hst
  · rw [consumeStep_timeout_trace grace env m hrecv hst]
    rw [hst] at hrep
    refine ⟨hfalse, ?_, ?_⟩
    · exact List.mem_append_left _ (List.mem_append_right _ hrep)
    · exact List.mem_append_right _ (List.mem_cons_self _ _)
  · rw [consumeStep_offline_trace grace env m hrecv hst]
    rw [hst] at hrep
    refine ⟨hfalse, ?_, ?_⟩
    · exact List.mem_append_left _ hrep
    · exact List.mem_append_right _ (List.mem_cons_self _ _)

/-- Witness for C10: a concrete `Offline` message with a failing PATCH is still
deleted, and the failure reported. -/
theorem consume_write_failure_still_deletes_witness :
    Event.report ∈ (consumeStep 7 ⟨Except.ok (some (RecvMsg.wellFormed
        ⟨"m3", "d1", 0⟩)), false, ⟨Except.ok none, true, Except.ok "m4", true⟩,
        true⟩).1
      ∧ Event.qdelete "m3" ∈ (consumeStep 7 ⟨Except.ok (some (RecvMsg.wellFormed
        ⟨"m3", "d1", 0⟩)), false, ⟨Except.ok none, true, Except.ok "m4", true⟩,
        true⟩).1 := by
  have h := consume_write_failure_still_deletes 7
    ⟨Except.ok (some (RecvMsg.wellFormed ⟨"m3", "d1", 0⟩)), false,
      ⟨Except.ok none, true, Except.ok "m4", true⟩, true⟩
    ⟨"m3", "d1", 0⟩ rfl rfl (Or.inr rfl)
  exact ⟨h.2.1, h.2.2⟩

/-- C9: if the Delay-Store read at the start of heartbeat intake rejects, or
the stored value cannot be parsed, the `.catch(() => true)` silently treats
the agent as freshly online: the `Online` write is attempted, the `Timeout`
transition is still scheduled, and no error report is emitted for the read
failure (with a succeeding PATCH the whole trace is report-free). -/
theorem heartbeat_read_failure_treated_fresh :
    ∀ (uuid : String) (t : Nat) (env : HbEnv),
      (env.getRes = Except.error ()
        ∨ env.getRes = Except.ok (some StoreVal.malformed)) →
      Event.patch uuid DeviceOnlineStates.Online ∈ (captureEventFor uuid t env).2
        ∧ (SchedSendOk env.sched →
            Event.qsend uuid DeviceOnlineStates.Timeout t
              ∈ (captureEventFor uuid t env).2)
        ∧ (env.patchOk = true → Event.report ∉ (captureEventFor uuid t env).2) := by
  intro uuid t env hget
  have hfresh : freshlyOnline env.getRes = true := by
    rcases hget with h | h <;> rw [h] <;> rfl
  rw [captureEventFor_trace, hfresh]
  refine ⟨?_, fun hs => ?_, fun hp hmem => ?_⟩
  · simp only [if_true]
    exact List.mem_cons_of_mem _ (List.mem_append_left _
      (updateDeviceModel_patch_mem uuid DeviceOnlineStates.Online env.patchOk))
  · simp only [if_true]
    exact List.mem_cons_of_mem _ (List.mem_append_right _
      (sched_qsend_of_sendOk uuid DeviceOnlineStates.Online
        DeviceOnlineStates.Timeout t env.sched hs))
  · rw [hp] at hmem
    rcases List.mem_cons.mp hmem with h | h
    · cases h
    · rcases List.mem_append.mp h with h | h
      · simp only [if_true, updateDeviceModel] at h
        simp at h
      · exact sched_no_report uuid DeviceOnlineStates.Online
          DeviceOnlineStates.Timeout t env.sched h

/-- Witness for C9: a concrete failing read still patches `Online`, schedules
`Timeout`, and reports nothing. -/
theorem heartbeat_read_failure_treated_fresh_witness :
    Event.patch "d1" DeviceOnlineStates.Online ∈ (captureEventFor "d1" 10
        ⟨Except.error (), true, ⟨Except.ok none, true, Except.ok "m5", true⟩⟩).2
      ∧ Event.qsend "d1" DeviceOnlineStates.Timeout 10 ∈ (captureEventFor "d1" 10
        ⟨Except.error (), true, ⟨Except.ok none, true, Except.ok "m5", true⟩⟩).2
      ∧ Event.report ∉ (captureEventFor "d1" 10
        ⟨Except.error (), true, ⟨Except.ok none, true, Except.ok "m5", true⟩⟩).2 := by
  have h := heartbeat_read_failure_treated_fresh "d1" 10
    ⟨Except.error (), true, ⟨Except.ok none, true, Except.ok "m5", true⟩⟩
    (Or.inl rfl)
  exact ⟨h.1, h.2.1 ⟨Or.inl rfl, "m5", rfl⟩, h.2.2 rfl⟩

/-- Counterexample to C1: a stored DelayRecord with `currentState = Online`
exists, yet the intake performs the Online write anyway, because the source
condition is `!id || currentState !== Online` and the record's id is falsy. -/
theorem heartbeat_online_write_counterexample :
    emptyIdEnv.getRes
        = Except.ok (some (StoreVal.record ⟨"", DeviceOnlineStates.Online⟩))
      ∧ Event.patch "d1" DeviceOnlineStates.Online
          ∈ (captureEventFor "d1" 10 emptyIdEnv).2 := by
  refine ⟨rfl, ?_⟩
  decide

/-- C1 (amended): the Online write to the System-of-Record is performed if and
only if the Delay-Store read fails, no record exists, the record cannot be
parsed, the record's pending-message id is empty, or its `currentState` is not
`Online`; in the remaining case (a parsed record with a non-empty id and
`currentState = Online`) no redundant Online write is made. -/
theorem heartbeat_online_write_iff :
    ∀ (uuid : String) (t : Nat) (env : HbEnv),
      Event.patch uuid DeviceOnlineStates.Online ∈ (captureEventFor uuid t env).2
        ↔ env.getRes = Except.error ()
          ∨ env.getRes = Except.ok none
          ∨ env.getRes = Except.ok (some StoreVal.malformed)
          ∨ ∃ r, env.getRes = Except.ok (some (StoreVal.record r))
              ∧ (r.id = "" ∨ r.currentState ≠ DeviceOnlineStates.Online) := by
  intro uuid t env
  have hiff : Event.patch uuid DeviceOnlineStates.Online
      ∈ (captureEventFor uuid t env).2 ↔ freshlyOnline env.getRes = true := by
    constructor
    · intro h
      rw [captureEventFor_trace] at h
      rcases List.mem_cons.mp h with h | h
      · cases h
      · rcases List.mem_append.mp h with h | h
        · by_cases hf : freshlyOnline env.getRes
          · exact hf
          · rw [if_neg hf] at h
            cases h
        · exact absurd h (sched_no_patch uuid DeviceOnlineStates.Online
            DeviceOnlineStates.Timeout t env.sched uuid DeviceOnlineStates.Online)
    · intro h
      rw [captureEventFor_trace, h]
      exact List.mem_cons_of_mem _ (List.mem_append_left _
        (updateDeviceModel_patch_mem uuid DeviceOnlineStates.Online env.patchOk))
  rw [hiff]
  obtain ⟨g, pOk, sEnv⟩ := env
  rcases g with e | (_ | (⟨r⟩ | _))
  · obtain ⟨⟩ := e
    simp [freshlyOnline]
  · simp [freshlyOnline]
  · simp [freshlyOnline]
  · simp [freshlyOnline]

/-- Counterexample to C5: a scheduler-infrastructure failure (the scheduler's
Delay-Store read rejects) is not swallowed by the heartbeat intake: the
promise returned by `captureEventFor` rejects, propagating the error to the
calling request path instead of returning a boolean. -/
theorem heartbeat_propagates_scheduler_failure :
    schedFailEnv.sched.getRes = Except.error ()
      ∧ (captureEventFor "d1" 10 schedFailEnv).1 = Except.error () :=
  ⟨rfl, rfl⟩

/-- C5 (amended): heartbeat intake swallows System-of-Record write failures
(after reporting) and Delay-Store read failures (silently), but not scheduling
failures: the outcome of `captureEventFor` is exactly the outcome of the
nested scheduling call, for every read outcome and every PATCH outcome; the
caller learns whether scheduling succeeded from the promise's resolution. -/
theorem heartbeat_outcome_is_scheduling_outcome :
    ∀ (uuid : String) (t : Nat) (g : Except Unit (Option StoreVal)) (b : Bool)
      (sEnv : SchedEnv),
      (captureEventFor uuid t ⟨g, b, sEnv⟩).1
        = (scheduleChangeOfStateForDevice uuid DeviceOnlineStates.Online
            DeviceOnlineStates.Timeout t sEnv).1 :=
  fun _ _ _ _ _ => rfl

/-- C6: the heartbeat intake unconditionally schedules the `Timeout` transition
after `timeoutSeconds`: whenever the delayed queue accepts the send, the
`Timeout` message is enqueued with the requested delay regardless of the
intake read outcome and of the `Online` PATCH outcome; a failing `Online`
write is reported but neither the outcome nor the scheduler part of the trace
depends on it. -/
theorem heartbeat_schedules_timeout_unconditionally :
    ∀ (uuid : String) (t : Nat) (env : HbEnv),
      SchedSendOk env.sched →
      Event.qsend uuid DeviceOnlineStates.Timeout t ∈ (captureEventFor uuid t env).2
        ∧ (env.patchOk = false → freshlyOnline env.getRes = true →
            Event.report ∈ (captureEventFor uuid t env).2)
        ∧ (∀ b : Bool, (captureEventFor uuid t ⟨env.getRes, b, env.sched⟩).1
            = (captureEventFor uuid t env).1) := by
  intro uuid t env hs
  refine ⟨?_, fun hp hf => ?_, fun b => rfl⟩
  · rw [captureEventFor_trace]
    exact List.mem_cons_of_mem _ (List.mem_append_right _
      (sched_qsend_of_sendOk uuid DeviceOnlineStates.Online
        DeviceOnlineStates.Timeout t env.sched hs))
  · rw [captureEventFor_trace, hf, hp]
    exact List.mem_cons_of_mem _ (List.mem_append_left _ (by simp [updateDeviceModel]))

/-- Witness for C6: with a failing Online PATCH and a fresh agent, the Timeout
message is still enqueued and the failure reported. -/
theorem heartbeat_schedules_timeout_unconditionally_witness :
    Event.qsend "d1" DeviceOnlineStates.Timeout 10 ∈ (captureEventFor "d1" 10
        ⟨Except.ok none, false, ⟨Except.ok none, true, Except.ok "m8", true⟩⟩).2
      ∧ Event.report ∈ (captureEventFor "d1" 10
        ⟨Except.ok none, false, ⟨Except.ok none, true, Except.ok "m8", true⟩⟩).2 := by
  have h := heartbeat_schedules_timeout_unconditionally "d1" 10
    ⟨Except.ok none, false, ⟨Except.ok none, true, Except.ok "m8", true⟩⟩
    ⟨Or.inl rfl, "m8", rfl⟩
  exact ⟨h.1, h.2.1 rfl rfl⟩

/-- C7: writing a state to the System-of-Record is idempotent: the PATCH is
filtered by `$not: { api_heartbeat_state: newState }`, so it touches only rows
whose persisted state differs; applying the same write twice equals applying
it once, and it is a no-op when the state is already equal. -/
theorem patchHeartbeatState_idempotent :
    ∀ (db : String → Int) (uuid : String) (s : Int),
      patchHeartbeatState (patchHeartbeatState db uuid s) uuid s
          = patchHeartbeatState db uuid s
        ∧ (db uuid = s → patchHeartbeatState db uuid s = db)
        ∧ (∀ u, patchHeartbeatState db uuid s u ≠ db u → u = uuid ∧ db u ≠ s) := by
  intro db uuid s
  refine ⟨funext fun u => ?_, fun h => funext fun u => ?_, fun u h => ?_⟩
  · by_cases h1 : u = uuid ∧ db u ≠ s
    · obtain ⟨hu, hne⟩ := h1
      subst hu
      simp [patchHeartbeatState, hne]
    · simp [patchHeartbeatState, h1]
  · by_cases h1 : u = uuid
    · subst h1
      simp [patchHeartbeatState, h]
    · simp [patchHeartbeatState, h1]
  · by_cases h1 : u = uuid ∧ db u ≠ s
    · exact h1
    · exact absurd (by simp [patchHeartbeatState, h1]) h

/-- Witness for C7: the no-op case at a concrete already-Online database. -/
theorem patchHeartbeatState_idempotent_witness :
    patchHeartbeatState (fun _ => (1 : Int)) "d1" 1 = (fun _ => (1 : Int)) :=
  (patchHeartbeatState_idempotent (fun _ => (1 : Int)) "d1" 1).2.1 rfl

/-- Counterexample to C8: when the queue receive rejects, the outer catch
reports the error and the loop reschedules immediately: the iteration's trace
is exactly one report, with no idle-delay effect, refuting the claim that
queue/store failures are retried after a fixed delay (the one-second
`Bluebird.delay` runs only on an empty receive). -/
theorem consume_failure_no_delay_counterexample :
    (consumeStep 5 failedRecvEnv).1 = [Event.report]
      ∧ Event.idleDelay ∉ (consumeStep 5 failedRecvEnv).1
      ∧ (consumeStep 5 failedRecvEnv).2 = true := by
  refine ⟨rfl, ?_, rfl⟩
  decide

/-- C8 (amended): the consume loop never terminates: every iteration schedules
another one; an empty receive produces exactly the one-second idle delay (the
sole idle-backoff), and a failed receive is reported and retried immediately,
the iteration's trace being exactly the report, with no delay. -/
theorem consume_loop_reschedules :
    ∀ (grace : Nat) (env : ConsumeEnv),
      (consumeStep grace env).2 = true
        ∧ (env.recvRes = Except.ok none →
            (consumeStep grace env).1 = [Event.idleDelay])
        ∧ (env.recvRes = Except.error () →
            (consumeStep grace env).1 = [Event.report]) := by
  intro grace env
  refine ⟨consumeStep_snd grace env, fun h => ?_, fun h => ?_⟩ <;>
    simp [consumeStep, h]

/-- Witness for C8: a concrete idle iteration waits and reschedules. -/
theorem consume_loop_reschedules_witness :
    (consumeStep 5 ⟨Except.ok none, true, ⟨Except.ok none, true,
        Except.ok "m", true⟩, true⟩).2 = true
      ∧ (consumeStep 5 ⟨Except.ok none, true, ⟨Except.ok none, true,
          Except.ok "m", true⟩, true⟩).1 = [Event.idleDelay] := by
  have h := consume_loop_reschedules 5 ⟨Except.ok none, true,
    ⟨Except.ok none, true, Except.ok "m", true⟩, true⟩
  exact ⟨h.1, h.2.1 rfl⟩

lemma delayStoreGet_set_self (st : String → Option StoredRecord) (u : String)
    (r : StoredRecord) : delayStoreGet (delayStoreSet st u r) u = some r := by
  simp [delayStoreGet, delayStoreSet]

lemma delayStoreGet_set_other (st : String → Option StoredRecord) (u k : String)
    (r : StoredRecord) (h : k ≠ u) :
    delayStoreGet (delayStoreSet st u r) k = delayStoreGet st k := by
  simp [delayStoreGet, delayStoreSet, h]

lemma cancelOld_sublist (s : SysState) (uuid : String) :
    (cancelOld s uuid).Sublist s.queue := by
  rcases h : delayStoreGet s.store uuid with _ | r
  · simp only [cancelOld, h]
    exact List.Sublist.refl _
  · simp only [cancelOld, h]
    split_ifs
    · exact List.Sublist.refl _
    · exact List.filter_sublist _

lemma cancelOld_no_uuid (s : SysState) (uuid : String) (hinv : QueueInv s) :
    ∀ e ∈ cancelOld s uuid, e.uuid ≠ uuid := by
  obtain ⟨hnd, hne, hcov⟩ := hinv
  intro e he huuid
  have heq : e ∈ s.queue := (cancelOld_sublist s uuid).subset he
  obtain ⟨r, hr, hrid⟩ := hcov e heq
  rw [huuid] at hr
  have he2 : e ∈ (if r.id = "" then s.queue
      else s.queue.filter (fun x => x.id ≠ r.id)) := by
    unfold cancelOld at he
    rw [hr] at he
    exact he
  by_cases hid : r.id = ""
  · exact hne e heq (hrid ▸ hid)
  · rw [if_neg hid] at he2
    have := List.mem_filter.mp he2
    simp at this
    exact this.2 hrid.symm

lemma scheduleOp_queueInv (s : SysState) (uuid : String) (cs ns : Int)
    (newId : String) (hinv : QueueInv s) (hIdne : newId ≠ "")
    (hfresh : ∀ e ∈ s.queue, e.id ≠ newId) :
    QueueInv (scheduleOp s uuid cs ns newId)
      ∧ pendingFor (scheduleOp s uuid cs ns newId) uuid
          = [⟨newId, uuid, ns⟩] := by
  obtain ⟨hnd, hne, hcov⟩ := hinv
  have hsub : ∀ e ∈ cancelOld s uuid, e ∈ s.queue :=
    fun e he => (cancelOld_sublist s uuid).subset he
  have hnu : ∀ e ∈ cancelOld s uuid, e.uuid ≠ uuid :=
    cancelOld_no_uuid s uuid ⟨hnd, hne, hcov⟩
  have hq : (scheduleOp s uuid cs ns newId).queue
      = cancelOld s uuid ++ [⟨newId, uuid, ns⟩] := rfl
  have hst : (scheduleOp s uuid cs ns newId).store
      = delayStoreSet s.store uuid ⟨newId, cs⟩ := rfl
  constructor
  · refine ⟨?_, ?_, ?_⟩
    · rw [hq, List.map_append, List.nodup_append]
      refine ⟨List.Nodup.sublist ((cancelOld_sublist s uuid).map QueueEntry.id) hnd,
        List.nodup_singleton _, ?_⟩
      intro a ha hb
      simp at hb
      obtain ⟨e, he, hei⟩ := List.mem_map.mp ha
      exact hfresh e (hsub e he) (by rw [hei, hb])
    · intro e he
      rw [hq] at he
      rcases List.mem_append.mp he with h | h
      · exact hne e (hsub e h)
      · simp at h
        rw [h]
        exact hIdne
    · intro e he
      rw [hq] at he
      rw [hst]
      rcases List.mem_append.mp he with h | h
      · obtain ⟨r, hr, hrid⟩ := hcov e (hsub e h)
        refine ⟨r, ?_, hrid⟩
        rw [delayStoreGet_set_other _ _ _ _ (hnu e h)]
        exact hr
      · simp at h
        rw [h]
        exact ⟨⟨newId, cs⟩, delayStoreGet_set_self _ _ _, rfl⟩
  · unfold pendingFor
    rw [hq, List.filter_append]
    have h1 : (cancelOld s uuid).filter (fun e => e.uuid = uuid) = [] := by
      rw [List.filter_eq_nil_iff]
      intro e he
      simp
      exact hnu e he
    rw [h1]
    simp

lemma queueInv_atMostOne (s : SysState) (h : QueueInv s) : AtMostOnePending s := by
  obtain ⟨hnd, hne, hcov⟩ := h
  intro u
  rcases hl : pendingFor s u with _ | ⟨a, _ | ⟨b, t⟩⟩
  · simp
  · simp
  · exfalso
    have hsubl : (pendingFor s u).Sublist s.queue := List.filter_sublist _
    have ha : a ∈ pendingFor s u := by
      rw [hl]; exact List.mem_cons_self _ _
    have hb : b ∈ pendingFor s u := by
      rw [hl]; exact List.mem_cons_of_mem _ (List.mem_cons_self _ _)
    have ha2 := List.mem_filter.mp ha
    have hb2 := List.mem_filter.mp hb
    simp at ha2 hb2
    obtain ⟨r, hra, hrida⟩ := hcov a ha2.1
    obtain ⟨r2, hrb, hridb⟩ := hcov b hb2.1
    rw [ha2.2] at hra
    rw [hb2.2] at hrb
    rw [hra] at hrb
    have hr : r = r2 := Option.some.inj hrb
    have hab : a.id = b.id := by
      rw [← hrida, ← hridb, hr]
    have hmap : ((pendingFor s u).map QueueEntry.id).Nodup :=
      List.Nodup.sublist (hsubl.map QueueEntry.id) hnd
    rw [hl] at hmap
    simp at hmap
    exact hmap.1.1 hab

/-- C4: `scheduleChangeOfStateForDevice` first reads the agent's DelayRecord;
when it names a pending message, that message is deleted from the Delayed
Queue before exactly one new message is enqueued, and the outcome is
independent of the old-message deletion outcome (`.catch(noop)`); on the
queue/store state this preserves the store-covers-queue invariant, leaves the
agent with exactly the one new pending message, and keeps at most one live
pending message per agent. -/
theorem schedule_at_most_one_pending :
    ∀ (uuid : String) (cs ns : Int) (d : Nat) (env : SchedEnv)
      (r : StoredRecord) (newId : String) (s : SysState),
      env.getRes = Except.ok (some (StoreVal.record r)) →
      r.id ≠ "" →
      env.sendRes = Except.ok newId →
      env.setOk = true →
      QueueInv s → newId ≠ "" → (∀ e ∈ s.queue, e.id ≠ newId) →
      (scheduleChangeOfStateForDevice uuid cs ns d env).1 = Except.ok ()
        ∧ (scheduleChangeOfStateForDevice uuid cs ns d env).2
            = [Event.storeGet uuid, Event.qdelete r.id, Event.qsend uuid ns d,
               Event.storePut uuid newId cs (d + 5)]
        ∧ (∀ b : Bool, scheduleChangeOfStateForDevice uuid cs ns d
              ⟨env.getRes, b, env.sendRes, env.setOk⟩
            = scheduleChangeOfStateForDevice uuid cs ns d env)
        ∧ QueueInv (scheduleOp s uuid cs ns newId)
        ∧ pendingFor (scheduleOp s uuid cs ns newId) uuid = [⟨newId, uuid, ns⟩]
        ∧ AtMostOnePending (scheduleOp s uuid cs ns newId) := by
  intro uuid cs ns d env r newId s hg hid hsend hset hinv hne hfresh
  have hop := scheduleOp_queueInv s uuid cs ns newId hinv hne hfresh
  refine ⟨?_, ?_, ?_, hop.1, hop.2, queueInv_atMostOne _ hop.1⟩
  · simp [scheduleChangeOfStateForDevice, hg, hsend, hset]
  · simp [scheduleChangeOfStateForDevice, hg, hsend, hset, oldDeleteEvs, hid]
  · intro b
    simp [scheduleChangeOfStateForDevice, hg, hsend, hset]

/-- Witness for C4: rescheduling over an empty system with a concrete stored
record deletes the old message, enqueues the one new message, and leaves the
agent with exactly one pending transition. -/
theorem schedule_at_most_one_pending_witness :
    (scheduleChangeOfStateForDevice "d1" 1 (-1) 10
        ⟨Except.ok (some (StoreVal.record ⟨"old", 1⟩)), true,
          Except.ok "new", true⟩).2
      = [Event.storeGet "d1", Event.qdelete "old", Event.qsend "d1" (-1) 10,
         Event.storePut "d1" "new" 1 15]
    ∧ pendingFor (scheduleOp ⟨[], fun _ => none⟩ "d1" 1 (-1) "new") "d1"
      = [⟨"new", "d1", -1⟩] := by
  have h := schedule_at_most_one_pending "d1" 1 (-1) 10
    ⟨Except.ok (some (StoreVal.record ⟨"old", 1⟩)), true, Except.ok "new", true⟩
    ⟨"old", 1⟩ "new" ⟨[], fun _ => none⟩ rfl (by decide) rfl rfl
    ⟨by simp, by simp, by simp⟩ (by decide) (by simp)
  exact ⟨h.2.1, h.2.2.2.2.1⟩

end DeviceOnlineState
